import Mathlib

/-!
# demo-APIwithDB.go : the game catalogue HTTP service

A shallow embedding of `demo-APIwithDB.go`: the two HTTP handlers
(`handlerGames`, `handlerGame`), the four repository functions
(`getGameList`, `removeGame`, `getGame`, `insertGame`), and `corsMiddleware`,
over explicit models of the pieces of the Go runtime they touch
(`strings.Split`, `strconv.Atoi`, `http.ResponseWriter`, `database/sql`).

Conventions.
* Go `string` values that the program inspects byte by byte (the URL path) are
  `List Char`; other strings are `String`.
* Go `int` is the 64-bit `int` (`strconv.IntSize = 64`), carried as `Int`
  with the range check made where the program makes it (`Atoi`).
* A Go `(value, error)` result is a pair whose second component is
  `Option` of the error (`none` is `nil`); a pointer result is `Option`
  (`none` is `nil`); a slice is `Slice` (`none` is the `nil` slice).
* The database is passed explicitly: every function that uses the global
  `Db` takes the database state and returns the new one.
-/

set_option autoImplicit false

namespace GameApi

/-! ## Go strings: `strings.Split` -/

/-- The constant `gamePath`. -/
def gamePath : List Char := "gamedb".toList

/-- The constant `BasePath`. -/
def BasePath : List Char := "/api".toList

/-- The separator `fmt.Sprintf("%s/", gamePath)` that `handlerGame` splits on. -/
def gameSep : List Char := gamePath ++ ['/']

/-- One step of `strings.Split`, like `strings.Cut`: the text before and after the
leftmost occurrence of the (non-empty) separator `sep` in `s`, or `none`
when `sep` does not occur (`strings.Index` returns `-1`). -/
def cutFirst (sep : List Char) : List Char → Option (List Char × List Char)
  | [] => none
  | c :: rest =>
    if sep.isPrefixOf (c :: rest) then some ([], (c :: rest).drop sep.length)
    else match cutFirst sep rest with
      | none => none
      | some (before, after) => some (c :: before, after)

/-- The loop of `strings.genSplit`: at most `n` cuts at the leftmost
occurrence of `sep`, the rest of the string being the last piece. -/
def splitLoop (sep : List Char) : Nat → List Char → List (List Char)
  | 0, s => [s]
  | n + 1, s =>
    match cutFirst sep s with
    | none => [s]
    | some (before, after) => before :: splitLoop sep n after

/-- The function `strings.Split(s, sep)`: for an empty separator the string is exploded
into its characters; otherwise `s` is cut at every non-overlapping occurrence
of `sep`, leftmost first. A string of length `n` holds at most `n`
occurrences of a non-empty separator, so `n` cuts are always enough
(`splitLoop_fuel`). -/
def Split (s sep : List Char) : List (List Char) :=
  if sep = [] then s.map (fun c => [c]) else splitLoop sep s.length s

/-! ## `strconv.Atoi` -/

/-- The error kinds of `strconv.NumError`. -/
inductive NumError where
  | ErrSyntax
  | ErrRange
deriving DecidableEq, Repr

/-- Value of a decimal digit, `none` for any other character. -/
def digitVal (c : Char) : Option Nat :=
  if '0'.toNat ≤ c.toNat ∧ c.toNat ≤ '9'.toNat then some (c.toNat - '0'.toNat) else none

/-- The constant `maxUint64` of `strconv`: `1<<64 - 1`. -/
def maxUint64 : Nat := 2 ^ 64 - 1

/-- The digit loop of `strconv.ParseUint(s, 10, 64)`, from the value `n` read
so far: a character that is no decimal digit is a syntax error; a digit at
which `n*10` or `n*10 + d` no longer fits in 64 bits is a range error, raised
before any later character is looked at. -/
def parseUint : List Char → Nat → Except NumError Nat
  | [], n => .ok n
  | c :: cs, n =>
    match digitVal c with
    | none => .error .ErrSyntax
    | some d =>
      if n ≥ maxUint64 / 10 + 1 then .error .ErrRange
      else if n * 10 + d > maxUint64 then .error .ErrRange
      else parseUint cs (n * 10 + d)

/-- The function `strconv.Atoi(s)` for the 64-bit `int`: an optional sign,
then one or more decimal digits read by the loop of `ParseUint`. The error is
the one of the loop (after a range error of the loop the value is
`maxUint64`, beyond both cutoffs of `ParseInt`, which is a range error
again); otherwise a range error when the value does not fit in
`[-2^63, 2^63 - 1]`. The fast path of `Atoi` for strings shorter than 19
bytes gives the same results as this path. -/
def Atoi (s : List Char) : Except NumError Int :=
  let neg : Bool := s.head? = some '-'
  let digits : List Char :=
    if s.head? = some '-' ∨ s.head? = some '+' then s.tail else s
  if digits = [] then .error .ErrSyntax
  else
    match parseUint digits 0 with
    | .error e => .error e
    | .ok n =>
      if neg then
        if n ≤ 2 ^ 63 then .ok (-(n : Int)) else .error .ErrRange
      else
        if n < 2 ^ 63 then .ok (n : Int) else .error .ErrRange

/-- The function `strconv.Itoa`, which is also the `%d` verb of
`fmt.Sprintf`: the decimal digits of an integer, after a `-` for a negative
one. -/
def Itoa (n : Int) : List Char :=
  if n < 0 then '-' :: Nat.toDigits 10 n.natAbs else Nat.toDigits 10 n.natAbs

/-- The pattern `fmt.Sprintf("%s/%s", apiBasePath, gamePath)` that
`SetupRoutes` registers for the collection endpoint. -/
def collectionPath : List Char := BasePath ++ ['/'] ++ gamePath

/-- The path of the item endpoint for the segment `seg`: the pattern
`fmt.Sprintf("%s/%s/", apiBasePath, gamePath)` that `SetupRoutes` registers,
followed by `seg`. -/
def itemPath (seg : List Char) : List Char := BasePath ++ ['/'] ++ gamePath ++ ['/'] ++ seg

/-! ## The data model -/

/-- A Go `float64`, carried by its IEEE-754 bit pattern (`math.Float64bits`).
The program never computes with a price; it only moves it between JSON and
the database. -/
structure Float64 where
  bits : Nat
deriving DecidableEq, Repr

/-- Neither NaN nor an infinity: the 11 exponent bits are not all ones. -/
def Float64.isFinite (f : Float64) : Bool := (f.bits / 2 ^ 52) % 2 ^ 11 != 2047

/-- The struct `GameList`, with JSON keys `gameid`, `gamename`, `price`,
`imageurl`. -/
structure GameList where
  GameID : Int
  Gamename : String
  Price : Float64
  ImageURL : String
deriving DecidableEq, Repr

/-- The zero value `GameList{}`. -/
def GameList.zero : GameList := ⟨0, "", ⟨0⟩, ""⟩

/-- A Go slice as far as the program can tell: `none` is the `nil` slice,
`some xs` a non-nil slice with elements `xs`. -/
abbrev Slice (α : Type) := Option (List α)

/-- The builtin `append(s, x)`: appending to the `nil` slice allocates. -/
def Slice.append {α : Type} (s : Slice α) (x : α) : Slice α :=
  match s with
  | none => some [x]
  | some xs => some (xs ++ [x])

/-! ## `encoding/json` -/

/-- A JSON document produced by `json.Marshal` on the values the program
encodes: `null` (a `nil` slice or pointer), the array of the objects of a
`[]GameList`, or the object of one `GameList`. -/
inductive Json where
  | null
  | array (items : List GameList)
  | object (game : GameList)
deriving DecidableEq, Repr

/-- The error of `json.Marshal` (`UnsupportedValueError`) or of
`Decoder.Decode`. -/
structure JsonError where
  msg : String
deriving DecidableEq, Repr

/-- The call `json.Marshal` on a `GameList` (or a non-nil `*GameList`): it fails
exactly on a price that JSON cannot represent (NaN, ±Inf). -/
def jsonMarshalGame (game : GameList) : Except JsonError Json :=
  if game.Price.isFinite then .ok (.object game)
  else .error ⟨"json: unsupported value"⟩

/-- The call `json.Marshal` on a `[]GameList`: `null` for the `nil` slice, else the
array of the elements, failing when an element does. -/
def jsonMarshalSlice (games : Slice GameList) : Except JsonError Json :=
  match games with
  | none => .ok .null
  | some xs =>
    if xs.all (fun g => g.Price.isFinite) then .ok (.array xs)
    else .error ⟨"json: unsupported value"⟩

/-! ## `net/http` -/

/-- One `Write` to the response body: raw text, or the bytes of a JSON
document returned by `json.Marshal`. -/
inductive Payload where
  | text (s : String)
  | json (j : Json)
deriving DecidableEq, Repr

def StatusOK : Nat := 200
def StatusCreated : Nat := 201
def StatusBadRequest : Nat := 400
def StatusNotFound : Nat := 404
def StatusMethodNotAllowed : Nat := 405
def StatusInternalServerError : Nat := 500

def MethodGet : String := "GET"
def MethodPost : String := "POST"
def MethodDelete : String := "DELETE"
def MethodOptions : String := "OPTIONS"

/-- The type `http.Header`: a map from header name to its values (no entry is the
empty list). -/
abbrev Header := String → List String

/-- The method `Header.Add`: append a value to the values of `key`. -/
def Header.Add (h : Header) (key value : String) : Header :=
  fun k => if k = key then h k ++ [value] else h k

/-- The method `Header.Set`: replace the values of `key` by the single `value`. -/
def Header.Set (h : Header) (key value : String) : Header :=
  fun k => if k = key then [value] else h k

/-- The state of an `http.ResponseWriter`: the header map, the status code
once `WriteHeader` has run (`none` before), and the writes to the body. -/
structure ResponseWriter where
  header : Header
  status : Option Nat
  body : List Payload

/-- The writer the server hands to a handler: nothing set, nothing written. -/
def ResponseWriter.fresh : ResponseWriter := ⟨fun _ => [], none, []⟩

/-- Nothing has been sent through the writer yet: no status line and no
body. The server hands every handler chain such a writer. -/
def ResponseWriter.Unwritten (w : ResponseWriter) : Prop := w.status = none ∧ w.body = []

/-- The call `w.WriteHeader(code)`: only the first call counts. -/
def ResponseWriter.WriteHeader (w : ResponseWriter) (code : Nat) : ResponseWriter :=
  match w.status with
  | none => { w with status := some code }
  | some _ => w

/-- The call `w.Write(b)`: sends status 200 first when no header was
written. The write itself is taken to succeed: its error result (the client
has gone away) is not modelled. -/
def ResponseWriter.Write (w : ResponseWriter) (b : Payload) : ResponseWriter :=
  let w1 := w.WriteHeader StatusOK
  { w1 with body := w1.body ++ [b] }

/-- The status line the client receives: the code passed to `WriteHeader`,
or 200 when the handler returned without writing one. -/
def ResponseWriter.Status (w : ResponseWriter) : Nat := w.status.getD StatusOK

/-- The part of `*http.Request` the handlers read. -/
structure Request where
  Method : String
  Path : List Char
  Body : String

/-! ## `database/sql` and the table `steamgame`

The MySQL server and the definition of the table `steamgame` are not part of
the repository. The model below is the table as the four statements of the
program see it. What the statements cannot tell (where the id that
`LastInsertId` reports comes from) is a parameter of the database state. -/

/-- An error reported by the driver or the server: lost connection, the
3-second context deadline, a constraint violation. -/
structure DriverError where
  msg : String
deriving DecidableEq, Repr

/-- The errors `database/sql` hands to the program: the sentinel
`sql.ErrNoRows` of `Row.Scan`, or an error of the driver. -/
inductive SqlError where
  | ErrNoRows
  | driver (e : DriverError)
deriving DecidableEq, Repr

/-- Modelled from the spec: a row of the table `steamgame`, whose definition
is not in the repository; the columns are those of the data model (integer
id, name, floating-point price, image reference), none nullable. A numeric
SQL column holds no NaN and no infinity. -/
structure SqlRow where
  gameid : Int
  gamename : String
  price : { f : Float64 // f.isFinite = true }
  imageurl : String
deriving DecidableEq

/-- Modelled from the spec: where the id reported for an `INSERT` comes from;
the definition of the table `steamgame` is not in the repository.
* `rowId next`: the table of the specification. The store assigns each new
  row an identifier of its own, `next` for the coming row, distinct from the
  `gameid` the caller supplies, which is stored as data.
* `gameidColumn next`: the column `gameid` itself is generated
  (`AUTO_INCREMENT`): a supplied 0 is replaced by `next`, and the id reported
  is the `gameid` stored.
* `noId`: the table has no generated column; the supplied `gameid` is
  stored as data and the id reported is 0. -/
inductive IdSource where
  | rowId (next : Int)
  | gameidColumn (next : Int)
  | noId
deriving DecidableEq, Repr

/-- The four statements the program sends. -/
inductive Stmt where
  | selectByID (gameid : Int)
  | deleteByID (gameid : Int)
  | selectAll
  | insert (game : GameList)
deriving DecidableEq, Repr

/-- The state behind the global `Db`.
* `rows`: the table `steamgame`, in scan order.
* `ids`: where the id reported for an `INSERT` comes from.
* `faults`: what the environment does to the coming statements, first
  entry for the next statement: `some e` makes it fail with `e` (timeout,
  lost connection), `none` or no entry lets it run.
* `log`: the statements sent so far. -/
structure Db where
  rows : List SqlRow
  ids : IdSource
  faults : List (Option DriverError)
  log : List Stmt
deriving DecidableEq

/-- The environment's verdict on the next statement: `some e` when it will
fail with `e`. -/
def Db.fault (db : Db) : Option DriverError := db.faults.head?.join

/-- The state once the statement `st` has been sent: the verdict is used up
and the statement is logged. -/
def Db.sent (db : Db) (st : Stmt) : Db :=
  { db with faults := db.faults.tail, log := db.log ++ [st] }

/-- Send a statement: the environment's verdict for it, and the state after
sending. -/
def Db.send (db : Db) (st : Stmt) : Option DriverError × Db :=
  (db.fault, db.sent st)

/-- What `Rows.Scan` / `Row.Scan` put into the four fields of a `GameList`. -/
def SqlRow.scan (row : SqlRow) : GameList :=
  ⟨row.gameid, row.gamename, row.price.val, row.imageurl⟩

/-- The call `Db.QueryRowContext(ctx, SELECT ... WHERE gameid = ?, gameid)`
followed by `row.Scan(...)` into a fresh `GameList{}`: the struct after the
scan and the error of `Scan`. -/
def Db.QueryRowScan (db : Db) (gameid : Int) : (GameList × Option SqlError) × Db :=
  match db.send (.selectByID gameid) with
  | (some e, db1) => ((GameList.zero, some (.driver e)), db1)
  | (none, db1) =>
    match db1.rows.find? (fun row => row.gameid = gameid) with
    | none => ((GameList.zero, some .ErrNoRows), db1)
    | some row => ((row.scan, none), db1)

/-- The call `Db.ExecContext(ctx, DELETE FROM steamgame WHERE gameid = ?, id)`:
the error, if any; every matching row is removed. -/
def Db.ExecDelete (db : Db) (gameid : Int) : Option SqlError × Db :=
  match db.send (.deleteByID gameid) with
  | (some e, db1) => (some (.driver e), db1)
  | (none, db1) => (none, { db1 with rows := db1.rows.filter (fun row => row.gameid ≠ gameid) })

/-- The call `Db.QueryContext(ctx, SELECT ... FROM steamgame)`: the rows the
cursor `results` will yield, or the error. -/
def Db.Query (db : Db) : Except SqlError (List SqlRow) × Db :=
  match db.send .selectAll with
  | (some e, db1) => (.error (.driver e), db1)
  | (none, db1) => (.ok db1.rows, db1)

/-- The `sql.Result` of an `INSERT`. -/
structure ExecResult where
  LastInsertId : Except SqlError Int

/-- The `gameid` under which an `INSERT` of `game` stores the row: the
supplied one, except that a generated `gameid` column replaces a supplied 0
by its next value. -/
def Db.storedId (db : Db) (game : GameList) : Int :=
  match db.ids with
  | .rowId _ => game.GameID
  | .gameidColumn next => if game.GameID = 0 then next else game.GameID
  | .noId => game.GameID

/-- The id that `LastInsertId` reports after an `INSERT` of `game`: the
identifier the store assigned to the row, the generated `gameid`, or 0 when
the table generates nothing. -/
def Db.reportedId (db : Db) (game : GameList) : Int :=
  match db.ids with
  | .rowId next => next
  | .gameidColumn _ => db.storedId game
  | .noId => 0

/-- The id source after an `INSERT` that stored a row under `stored`. -/
def IdSource.advance (ids : IdSource) (stored : Int) : IdSource :=
  match ids with
  | .rowId next => .rowId (next + 1)
  | .gameidColumn next => .gameidColumn (max next (stored + 1))
  | .noId => .noId

/-- Modelled from the spec: the `INSERT` of all four fields into the table
`steamgame`, whose definition is not in the repository. The `gameid` is
unique, which the store enforces; the row is stored under `Db.storedId` and
the store reports `Db.reportedId`. A price that is no SQL number is
rejected. -/
def Db.ExecInsert (db : Db) (game : GameList) : Except SqlError ExecResult × Db :=
  match db.send (.insert game) with
  | (some e, db1) => (.error (.driver e), db1)
  | (none, db1) =>
    if hfin : game.Price.isFinite = true then
      if db1.rows.any (fun row => row.gameid = db1.storedId game) then
        (.error (.driver ⟨"Error 1062: Duplicate entry"⟩), db1)
      else
        (.ok ⟨.ok (db1.reportedId game)⟩,
          { db1 with
            rows := db1.rows ++
              [⟨db1.storedId game, game.Gamename, ⟨game.Price, hfin⟩, game.ImageURL⟩],
            ids := db1.ids.advance (db1.storedId game) })
    else
      (.error (.driver ⟨"Error 1054: Unknown column in field list"⟩), db1)

/-! ## The repository functions -/

/-- The function `getGameList`: `(nil, nil)` when no row matches, `(nil, err)`
on any other error of the scan, the row otherwise. -/
def getGameList (db : Db) (gameid : Int) : (Option GameList × Option SqlError) × Db :=
  match db.QueryRowScan gameid with
  | ((game, err), db1) =>
    if err = some .ErrNoRows then ((none, none), db1)
    else if err ≠ none then ((none, err), db1)
    else ((some game, none), db1)

/-- The function `removeGame`. -/
def removeGame (db : Db) (GameID : Int) : Option SqlError × Db :=
  match db.ExecDelete GameID with
  | (some err, db1) => (some err, db1)
  | (none, db1) => (none, db1)

/-- The function `getGame`: `(nil, err)` when the query fails; otherwise the
slice made by `make([]GameList, 0)` with every row of the cursor appended.
The source ignores the error of `results.Scan`; a row of `SqlRow` always
scans. -/
def getGame (db : Db) : (Slice GameList × Option SqlError) × Db :=
  match db.Query with
  | (.error err, db1) => ((none, some err), db1)
  | (.ok results, db1) =>
    let games : Slice GameList := some []
    ((results.foldl (fun games row => games.append row.scan) games, none), db1)

/-- The function `insertGame`: the id reported by `LastInsertId`, or 0 and
the error of the `INSERT` or of `LastInsertId`. -/
def insertGame (db : Db) (game : GameList) : (Int × Option SqlError) × Db :=
  match db.ExecInsert game with
  | (.error err, db1) => ((0, some err), db1)
  | (.ok result, db1) =>
    match result.LastInsertId with
    | .error err => ((0, some err), db1)
    | .ok insertID => ((insertID, none), db1)

/-! ## The handlers -/

/-- How a handler call ends: it returns, the process is ended by
`log.Fatal`, or the goroutine panics on an index out of range. -/
inductive Exit where
  | returned
  | fatal
  | panic
deriving DecidableEq, Repr

/-- The outcome of serving one request: the response writer, the database,
and how the call ended. -/
structure Served where
  w : ResponseWriter
  db : Db
  exit : Exit

/-- An `http.Handler`, with the database passed explicitly. -/
abbrev Handler := ResponseWriter → Request → Db → Served

/-- The slice expression `s[n:]`, `none` when it panics. -/
def sliceFrom {α : Type} (s : List α) (n : Nat) : Option (List α) :=
  if n ≤ s.length then some (s.drop n) else none

/-- The function `handlerGames`, for the collection endpoint. `decode` is
`json.NewDecoder(r.Body).Decode(&game)` as a function of the request body.
A failing `json.Marshal` ends the process through `log.Fatal`; the calls to
`log.Print` leave no trace in the model. -/
def handlerGames (decode : String → Except JsonError GameList) : Handler :=
  fun w r db =>
  if r.Method = MethodGet then
    match getGame db with
    | ((_, some _), db1) => ⟨w.WriteHeader StatusInternalServerError, db1, .returned⟩
    | ((gameList, none), db1) =>
      match jsonMarshalSlice gameList with
      | .error _ => ⟨w, db1, .fatal⟩
      | .ok j => ⟨w.Write (.json j), db1, .returned⟩
  else if r.Method = MethodPost then
    match decode r.Body with
    | .error _ => ⟨w.WriteHeader StatusBadRequest, db, .returned⟩
    | .ok game =>
      match insertGame db game with
      | ((_, some _), db1) => ⟨w.WriteHeader StatusBadRequest, db1, .returned⟩
      | ((GameID, none), db1) =>
        ⟨(w.WriteHeader StatusCreated).Write (.text ("\x7b\"gameid\":" ++ (Itoa GameID).asString ++ "\x7d")),
          db1, .returned⟩
  else if r.Method = MethodOptions then ⟨w, db, .returned⟩
  else ⟨w.WriteHeader StatusMethodNotAllowed, db, .returned⟩

/-- The `switch r.Method` statement of `handlerGame`, reached once the id
`gamesID` has been parsed from the path. -/
def gameMethodSwitch (gamesID : Int) : Handler :=
  fun w r db =>
  if r.Method = MethodGet then
    match getGameList db gamesID with
    | ((_, some _), db1) => ⟨w.WriteHeader StatusInternalServerError, db1, .returned⟩
    | ((none, none), db1) => ⟨w.WriteHeader StatusNotFound, db1, .returned⟩
    | ((some game, none), db1) =>
      match jsonMarshalGame game with
      | .error _ => ⟨w.WriteHeader StatusBadRequest, db1, .returned⟩
      | .ok j => ⟨w.Write (.json j), db1, .returned⟩
  else if r.Method = MethodDelete then
    match removeGame db gamesID with
    | (some _, db1) => ⟨w.WriteHeader StatusInternalServerError, db1, .returned⟩
    | (none, db1) => ⟨w, db1, .returned⟩
  else ⟨w.WriteHeader StatusMethodNotAllowed, db, .returned⟩

/-- The function `handlerGame`, for the item endpoint: the path is split on
`gamedb/`, more than one piece after the first is a bad request, the last
piece is parsed as the id, and the method is dispatched. -/
def handlerGame : Handler :=
  fun w r db =>
  let urlPathSegment := Split r.Path gameSep
  match sliceFrom urlPathSegment 1 with
  | none => ⟨w, db, .panic⟩
  | some tail =>
    if tail.length > 1 then ⟨w.WriteHeader StatusBadRequest, db, .returned⟩
    else
      match urlPathSegment[urlPathSegment.length - 1]? with
      | none => ⟨w, db, .panic⟩
      | some last =>
        match Atoi last with
        | .error _ => ⟨w.WriteHeader StatusNotFound, db, .returned⟩
        | .ok gamesID => gameMethodSwitch gamesID w r db

/-- The header writes of `corsMiddleware`, in the order of the source. -/
def corsHeaders (w : ResponseWriter) : ResponseWriter :=
  let h1 := w.header.Add "Access-Control-Allow-Origin" "*"
  let h2 := h1.Add "Content-Type" "application/json"
  let h3 := h2.Set "Access-Control-Allow-Methods" "POST, GET, OPTIONS, PUT, DELETE"
  let h4 := h3.Set "Access-Control-Allow-Headers" "Accept, Content-Type, Authorization, X-Control"
  { w with header := h4 }

/-- The function `corsMiddleware`. -/
def corsMiddleware (handler : Handler) : Handler :=
  fun w r db => handler (corsHeaders w) r db

/-- The handler `SetupRoutes` registers for `/api/gamedb`. -/
def gamesRoute (decode : String → Except JsonError GameList) : Handler :=
  corsMiddleware (handlerGames decode)

/-- The handler `SetupRoutes` registers for `/api/gamedb/`. -/
def gameRoute : Handler := corsMiddleware handlerGame

/-! ## Sample values

Concrete requests and database states at which the statements below are
evaluated. -/

/-- The payload of the scenario of the specification: no `gameid` (so 0),
name `Portal`, price 9.99 (bit pattern `0x4023FAE147AE147B`), image `x.png`. -/
def portal : GameList := ⟨0, "Portal", ⟨0x4023FAE147AE147B⟩, "x.png"⟩

/-- The same payload with the id 7 supplied by the client. -/
def portal7 : GameList := ⟨7, "Portal", ⟨0x4023FAE147AE147B⟩, "x.png"⟩

/-- A decoder that reads the body `portal` as `portal`, the body `portal7`
as `portal7`, and rejects everything else. -/
def sampleDecode (body : String) : Except JsonError GameList :=
  if body = "portal" then .ok portal
  else if body = "portal7" then .ok portal7
  else .error ⟨"invalid character"⟩

/-- An empty table without any generated column; every statement runs. -/
def emptyDb : Db := ⟨[], .noId, [], []⟩

/-- An empty table whose `gameid` column is `AUTO_INCREMENT`, next value 1. -/
def emptyAutoDb : Db := ⟨[], .gameidColumn 1, [], []⟩

/-- The empty table of the specification: the store assigns each row an
identifier of its own, 1 for the first row, and keeps `gameid` as data. -/
def emptyRowIdDb : Db := ⟨[], .rowId 1, [], []⟩

/-- A table holding one row with `gameid` 1. -/
def oneRowDb : Db := ⟨[⟨1, "Portal", ⟨⟨0x4023FAE147AE147B⟩, by decide⟩, "x.png"⟩], .noId, [], []⟩

/-- The one-row table at a moment when the next statement times out. -/
def failingDb : Db := { oneRowDb with faults := [some ⟨"context deadline exceeded"⟩] }

/-- A request with the given method and path and an empty body. -/
def request (method : String) (path : String) : Request := ⟨method, path.toList, ""⟩


/-! ## Facts about `strings.Split` -/

theorem cutFirst_some_eq (sep : List Char) :
    ∀ (s a b : List Char), cutFirst sep s = some (a, b) → s = a ++ sep ++ b := by
  intro s
  induction s with
  | nil => intro a b h; simp [cutFirst] at h
  | cons c rest ih =>
    intro a b h
    unfold cutFirst at h
    split at h
    · next hp =>
      simp only [Option.some.injEq, Prod.mk.injEq] at h
      obtain ⟨rfl, rfl⟩ := h
      rw [ List.isPrefixOf_iff_prefix] at hp
      obtain ⟨t, ht⟩ := hp
      rw [← ht]
      simp
    · next hp =>
      cases hc : cutFirst sep rest with
      | none => simp [hc] at h
      | some p =>
        obtain ⟨a1, b1⟩ := p
        simp only [hc, Option.some.injEq, Prod.mk.injEq] at h
        obtain ⟨rfl, rfl⟩ := h
        have := ih a1 b1 hc
        rw [this]
        simp

theorem cutFirst_none_no_occurrence (sep : List Char) (hsep : sep ≠ []) :
    ∀ (s : List Char), cutFirst sep s = none → ∀ a b : List Char, s ≠ a ++ sep ++ b := by
  intro s
  induction s with
  | nil =>
    intro _ a b h
    have : sep = [] := by
      have h2 := congrArg List.length h
      simp at h2
      exact List.length_eq_zero.mp (by omega)
    exact hsep this
  | cons c rest ih =>
    intro h a b hab
    unfold cutFirst at h
    split at h
    · simp at h
    · next hp =>
      cases hc : cutFirst sep rest with
      | some p => simp [hc] at h
      | none =>
        cases a with
        | nil =>
          apply hp
          rw [ List.isPrefixOf_iff_prefix]
          exact ⟨b, by simpa using hab.symm⟩
        | cons a0 a1 =>
          simp only [List.cons_append, List.cons.injEq] at hab
          exact ih hc a1 b hab.2

theorem cutFirst_leftmost (sep : List Char) :
    ∀ (s a b x y : List Char), cutFirst sep s = some (a, b) → s = x ++ sep ++ y →
      a.length ≤ x.length := by
  intro s
  induction s with
  | nil => intro a b x y h; simp [cutFirst] at h
  | cons c rest ih =>
    intro a b x y h hxy
    unfold cutFirst at h
    split at h
    · simp only [Option.some.injEq, Prod.mk.injEq] at h
      rw [← h.1]; simp
    · next hp =>
      cases hc : cutFirst sep rest with
      | none => simp [hc] at h
      | some p =>
        obtain ⟨a1, b1⟩ := p
        simp only [hc, Option.some.injEq, Prod.mk.injEq] at h
        obtain ⟨rfl, rfl⟩ := h
        cases x with
        | nil =>
          exfalso
          apply hp
          rw [ List.isPrefixOf_iff_prefix]
          exact ⟨y, by simpa using hxy.symm⟩
        | cons x0 x1 =>
          simp only [List.cons_append, List.cons.injEq] at hxy
          have := ih a1 b1 x1 y hc hxy.2
          simp only [List.length_cons]
          omega

theorem cutFirst_isSome_of_occurrence (sep : List Char) (hsep : sep ≠ [])
    (s a b : List Char) (h : s = a ++ sep ++ b) : ∃ p, cutFirst sep s = some p := by
  cases hc : cutFirst sep s with
  | some p => exact ⟨p, rfl⟩
  | none => exact absurd h (cutFirst_none_no_occurrence sep hsep s hc a b)

theorem splitLoop_length_pos (sep : List Char) :
    ∀ (n : Nat) (s : List Char), 0 < (splitLoop sep n s).length := by
  intro n
  induction n with
  | zero => intro s; simp [splitLoop]
  | succ n ih =>
    intro s
    unfold splitLoop
    split <;> simp

theorem cutFirst_length (sep : List Char) (s a b : List Char)
    (h : cutFirst sep s = some (a, b)) : s.length = a.length + sep.length + b.length := by
  have := cutFirst_some_eq sep s a b h
  rw [this]; simp; omega

/-- Fuel: for a non-empty separator, any fuel of at least the length of the
string gives the same pieces, so the loop of `Split` always ends by finding
no further separator. -/
theorem splitLoop_fuel (sep : List Char) (hsep : sep ≠ []) :
    ∀ (n m : Nat) (s : List Char), s.length ≤ n → s.length ≤ m →
      splitLoop sep n s = splitLoop sep m s := by
  intro n
  induction n with
  | zero =>
    intro m s hn _
    have hs : s = [] := List.length_eq_zero.mp (Nat.le_zero.mp hn)
    subst hs
    cases m <;> simp [splitLoop, cutFirst]
  | succ n ih =>
    intro m s hn hm
    cases m with
    | zero =>
      have hs : s = [] := List.length_eq_zero.mp (Nat.le_zero.mp hm)
      subst hs
      simp [splitLoop, cutFirst]
    | succ m =>
      unfold splitLoop
      cases hc : cutFirst sep s with
      | none => rfl
      | some p =>
        obtain ⟨a, b⟩ := p
        have hl := cutFirst_length sep s a b hc
        have hpos : 0 < sep.length := List.length_pos.mpr hsep
        simp only
        rw [ih m b (by omega) (by omega)]

theorem gameSep_ne_nil : gameSep ≠ [] := by decide

theorem Split_gameSep (s : List Char) : Split s gameSep = splitLoop gameSep s.length s := by
  simp [Split, gameSep_ne_nil]

theorem Split_length_pos (s : List Char) : 0 < (Split s gameSep).length := by
  rw [Split_gameSep]; exact splitLoop_length_pos _ _ _

theorem splitLoop_length_gt_two (sep : List Char) (n : Nat) (s : List Char) :
    2 < (splitLoop sep n s).length ↔
      2 ≤ n ∧ ∃ a b a1 b1, cutFirst sep s = some (a, b) ∧ cutFirst sep b = some (a1, b1) := by
  match n with
  | 0 => simp [splitLoop]
  | 1 =>
    unfold splitLoop
    cases hc : cutFirst sep s with
    | none => simp
    | some p => simp [splitLoop]
  | k + 2 =>
    unfold splitLoop
    cases hc : cutFirst sep s with
    | none => simp
    | some p =>
      obtain ⟨a, b⟩ := p
      unfold splitLoop
      cases hc2 : cutFirst sep b with
      | none => simp [hc2]
      | some p2 =>
        obtain ⟨a1, b1⟩ := p2
        have hpos := splitLoop_length_pos sep k b1
        constructor
        · intro _
          exact ⟨by omega, a, b, a1, b1, rfl, hc2⟩
        · intro _
          simp only [hc2, List.length_cons]
          omega

/-- The pieces of `Split p "gamedb/"` number more than two exactly when `p`
holds two non-overlapping occurrences of the separator. -/
theorem Split_length_gt_two_iff (p : List Char) :
    2 < (Split p gameSep).length ↔
      ∃ a b c : List Char, p = a ++ gameSep ++ b ++ gameSep ++ c := by
  rw [Split_gameSep, splitLoop_length_gt_two]
  have hpos : 0 < gameSep.length := List.length_pos.mpr gameSep_ne_nil
  constructor
  · rintro ⟨_, a, b, a1, b1, h1, h2⟩
    refine ⟨a, a1, b1, ?_⟩
    rw [cutFirst_some_eq _ _ _ _ h1, cutFirst_some_eq _ _ _ _ h2]
    simp
  · rintro ⟨x, y, z, h⟩
    obtain ⟨⟨a, b⟩, h1⟩ :=
      cutFirst_isSome_of_occurrence gameSep gameSep_ne_nil p x (y ++ gameSep ++ z) (by simp [h])
    have hle : a.length ≤ x.length :=
      cutFirst_leftmost gameSep p a b x (y ++ gameSep ++ z) h1 (by simp [h])
    have hp := cutFirst_some_eq _ _ _ _ h1
    -- the rest `b` is `p` without its first `a.length + gameSep.length` characters
    have hb : b = (p.drop (a.length + gameSep.length)) := by
      conv_rhs => rw [hp]
      rw [← List.length_append, List.append_assoc a gameSep b]
      rw [← List.append_assoc a gameSep b, List.drop_left]
    have hb2 : b = (x ++ gameSep).drop (a.length + gameSep.length) ++ (y ++ gameSep ++ z) := by
      rw [hb, h]
      have : x ++ gameSep ++ y ++ gameSep ++ z = (x ++ gameSep) ++ (y ++ gameSep ++ z) := by simp
      rw [this, List.drop_append_of_le_length]
      simp; omega
    obtain ⟨⟨a1, b1⟩, h2⟩ :=
      cutFirst_isSome_of_occurrence gameSep gameSep_ne_nil b
        ((x ++ gameSep).drop (a.length + gameSep.length) ++ y) z (by rw [hb2]; simp)
    refine ⟨?_, a, b, a1, b1, h1, h2⟩
    have l1 := cutFirst_length _ _ _ _ h1
    have l2 := cutFirst_length _ _ _ _ h2
    omega

/-- A segment without a slash holds no separator. -/
theorem cutFirst_gameSep_none (seg : List Char) (h : '/' ∉ seg) : cutFirst gameSep seg = none := by
  cases hc : cutFirst gameSep seg with
  | none => rfl
  | some p =>
    obtain ⟨a, b⟩ := p
    exfalso
    apply h
    rw [cutFirst_some_eq _ _ _ _ hc]
    simp [gameSep]

/-! ## Facts about `strconv.Atoi` and `strconv.Itoa` -/

theorem digitVal_digitChar (d : Nat) (h : d < 10) : digitVal (Nat.digitChar d) = some d := by
  interval_cases d <;> rfl

theorem parseUint_append (xs ys : List Char) :
    ∀ acc : Nat, parseUint (xs ++ ys) acc = (parseUint xs acc).bind (parseUint ys) := by
  induction xs with
  | nil => intro acc; rfl
  | cons c cs ih =>
    intro acc
    simp only [List.cons_append, parseUint]
    cases digitVal c with
    | none => rfl
    | some d =>
      simp only
      split
      · rfl
      · split
        · rfl
        · exact ih _

theorem toDigitsCore_append (f : Nat) :
    ∀ (n : Nat) (ds : List Char),
      Nat.toDigitsCore 10 f n ds = Nat.toDigitsCore 10 f n [] ++ ds := by
  induction f with
  | zero => intro n ds; simp [Nat.toDigitsCore]
  | succ f ih =>
    intro n ds
    simp only [Nat.toDigitsCore]
    split
    · simp
    · rw [ih (n / 10) (Nat.digitChar (n % 10) :: ds), ih (n / 10) [Nat.digitChar (n % 10)]]
      simp

theorem parseUint_digit (n d : Nat) (hd : d < 10) (hn : n * 10 + d < 2 ^ 64) :
    parseUint [Nat.digitChar d] n = .ok (n * 10 + d) := by
  have h1 : ¬ n ≥ maxUint64 / 10 + 1 := by
    have : maxUint64 / 10 + 1 = 1844674407370955162 := by decide
    rw [this]; omega
  have h2 : ¬ n * 10 + d > maxUint64 := by
    have : maxUint64 = 18446744073709551615 := by decide
    rw [this]; omega
  simp only [parseUint, digitVal_digitChar _ hd, h1, h2, if_false]

theorem parseUint_toDigitsCore (f : Nat) :
    ∀ n : Nat, n < f → n < 2 ^ 64 → parseUint (Nat.toDigitsCore 10 f n []) 0 = .ok n := by
  induction f with
  | zero => intro n h; omega
  | succ f ih =>
    intro n h h64
    have hlt : n % 10 < 10 := Nat.mod_lt _ (by decide)
    simp only [Nat.toDigitsCore]
    split
    · next h0 =>
      rw [parseUint_digit 0 (n % 10) hlt (by omega)]
      congr 1
      omega
    · next h0 =>
      rw [toDigitsCore_append, parseUint_append, ih (n / 10) (by omega) (by omega)]
      show parseUint [Nat.digitChar (n % 10)] (n / 10) = .ok n
      rw [parseUint_digit (n / 10) (n % 10) hlt (by omega)]
      congr 1
      omega

theorem parseUint_toDigits (n : Nat) (h : n < 2 ^ 64) :
    parseUint (Nat.toDigits 10 n) 0 = .ok n :=
  parseUint_toDigitsCore (n + 1) n (Nat.lt_succ_self n) h

theorem parseUint_ok_digit :
    ∀ (xs : List Char) (acc m : Nat), parseUint xs acc = .ok m →
      ∀ c ∈ xs, (digitVal c).isSome = true := by
  intro xs
  induction xs with
  | nil => intro _ _ _ c hc; simp at hc
  | cons x xs ih =>
    intro acc m h c hc
    simp only [parseUint] at h
    cases hx : digitVal x with
    | none => rw [hx] at h; cases h
    | some d =>
      rw [hx] at h
      simp only at h
      split at h
      · cases h
      · split at h
        · cases h
        · rcases List.mem_cons.mp hc with rfl | hmem
          · simp [hx]
          · exact ih _ _ h c hmem

/-- Every character that `Nat.toDigits 10` prints is a decimal digit. -/
theorem toDigitsCore_all_digits (f : Nat) :
    ∀ (n : Nat), ∀ c ∈ Nat.toDigitsCore 10 f n [], (digitVal c).isSome = true := by
  induction f with
  | zero => intro n c hc; simp [Nat.toDigitsCore] at hc
  | succ f ih =>
    intro n c hc
    have hlt : n % 10 < 10 := Nat.mod_lt _ (by decide)
    simp only [Nat.toDigitsCore] at hc
    split at hc
    · simp only [List.mem_singleton] at hc
      rw [hc, digitVal_digitChar _ hlt]; rfl
    · rw [toDigitsCore_append] at hc
      rcases List.mem_append.mp hc with h | h
      · exact ih _ c h
      · simp only [List.mem_singleton] at h
        rw [h, digitVal_digitChar _ hlt]; rfl

theorem toDigits_ne_nil (n : Nat) : Nat.toDigits 10 n ≠ [] := by
  intro h
  simp only [Nat.toDigits, Nat.toDigitsCore] at h
  split at h
  · simp at h
  · rw [toDigitsCore_append] at h
    simp at h

theorem toDigits_all_digits (n : Nat) : ∀ c ∈ Nat.toDigits 10 n, (digitVal c).isSome = true :=
  toDigitsCore_all_digits (n + 1) n

theorem toDigits_head (n : Nat) :
    (Nat.toDigits 10 n).head? ≠ some '-' ∧ (Nat.toDigits 10 n).head? ≠ some '+' := by
  have hall := toDigits_all_digits n
  cases hl : Nat.toDigits 10 n with
  | nil => simp
  | cons c cs =>
    have hc := hall c (by rw [hl]; simp)
    constructor
    · intro h
      simp only [List.head?_cons, Option.some.injEq] at h
      subst h
      simp [digitVal] at hc
    · intro h
      simp only [List.head?_cons, Option.some.injEq] at h
      subst h
      simp [digitVal] at hc

/-- Round trip: `Atoi` reads back every 64-bit `int` that `Itoa` prints. -/
theorem Atoi_Itoa (n : Int) (hlo : -(2 : Int) ^ 63 ≤ n) (hhi : n < (2 : Int) ^ 63) :
    Atoi (Itoa n) = .ok n := by
  unfold Itoa
  split
  · next hneg =>
    have hp := parseUint_toDigits n.natAbs (by omega)
    have hne := toDigits_ne_nil n.natAbs
    simp only [Atoi, List.head?_cons, true_or, if_true, List.tail_cons, hne, if_false, hp,
      decide_True]
    have h1 : n.natAbs ≤ 2 ^ 63 := by omega
    simp only [h1, if_true]
    congr 1
    omega
  · next hpos =>
    have hp := parseUint_toDigits n.natAbs (by omega)
    have hne := toDigits_ne_nil n.natAbs
    obtain ⟨hm, hpl⟩ := toDigits_head n.natAbs
    simp only [Atoi, hm, hpl, or_self, if_false, hne, hp, decide_False]
    have h1 : n.natAbs < 2 ^ 63 := by omega
    simp only [h1, if_true, Bool.false_eq_true, if_false]
    congr 1
    omega


/-! ## Facts about the database model and the repository functions -/

theorem sent_rows (db : Db) (st : Stmt) : (db.sent st).rows = db.rows := rfl

theorem sent_ids (db : Db) (st : Stmt) : (db.sent st).ids = db.ids := rfl

theorem sent_storedId (db : Db) (st : Stmt) (game : GameList) :
    (db.sent st).storedId game = db.storedId game := rfl

theorem sent_reportedId (db : Db) (st : Stmt) (game : GameList) :
    (db.sent st).reportedId game = db.reportedId game := rfl


theorem getGameList_fault (db : Db) (id : Int) (e : DriverError)
    (hf : db.fault = some e) :
    getGameList db id = ((none, some (.driver e)), db.sent (.selectByID id)) := by
  simp [getGameList, Db.QueryRowScan, Db.send, hf]

theorem getGameList_found (db : Db) (id : Int) (row : SqlRow)
    (hf : db.fault = none)
    (hrow : db.rows.find? (fun row => row.gameid = id) = some row) :
    getGameList db id = ((some row.scan, none), db.sent (.selectByID id)) := by
  simp [getGameList, Db.QueryRowScan, Db.send, hf, sent_rows, hrow]

theorem getGameList_absent (db : Db) (id : Int)
    (hf : db.fault = none)
    (hrow : db.rows.find? (fun row => row.gameid = id) = none) :
    getGameList db id = ((none, none), db.sent (.selectByID id)) := by
  simp [getGameList, Db.QueryRowScan, Db.send, hf, sent_rows, hrow]

/-- A row that `getGameList` returns was scanned from the table, so its price
is finite and `json.Marshal` accepts it. -/
theorem getGameList_some_marshal (db : Db) (id : Int) (game : GameList) (db1 : Db)
    (h : getGameList db id = ((some game, none), db1)) :
    jsonMarshalGame game = .ok (.object game) := by
  cases hf : db.fault with
  | some e => rw [getGameList_fault db id e hf] at h; simp at h
  | none =>
    cases hrow : db.rows.find? (fun row => row.gameid = id) with
    | none => rw [getGameList_absent db id hf hrow] at h; simp at h
    | some row =>
      rw [getGameList_found db id row hf hrow] at h
      simp only [Prod.mk.injEq, Option.some.injEq, and_true, true_and] at h
      rw [← h.1]
      simp [jsonMarshalGame, SqlRow.scan, row.price.property]

theorem removeGame_fault (db : Db) (id : Int) (e : DriverError)
    (hf : db.fault = some e) :
    removeGame db id = (some (.driver e), db.sent (.deleteByID id)) := by
  simp [removeGame, Db.ExecDelete, Db.send, hf, sent_rows]

theorem removeGame_ok (db : Db) (id : Int) (hf : db.fault = none) :
    removeGame db id =
      (none, { db.sent (.deleteByID id) with
                rows := db.rows.filter (fun row => row.gameid ≠ id) }) := by
  simp [removeGame, Db.ExecDelete, Db.send, hf, sent_rows]

theorem foldl_append_scan (rows : List SqlRow) :
    ∀ acc : List GameList,
      rows.foldl (fun (games : Slice GameList) row => games.append row.scan) (some acc)
        = some (acc ++ rows.map SqlRow.scan) := by
  induction rows with
  | nil => intro acc; simp
  | cons row rows ih =>
    intro acc
    have hstep : Slice.append (some acc) row.scan = some (acc ++ [row.scan]) := rfl
    rw [List.foldl_cons, hstep, ih]
    simp

theorem getGame_fault (db : Db) (e : DriverError) (hf : db.fault = some e) :
    getGame db = ((none, some (.driver e)), db.sent .selectAll) := by
  simp [getGame, Db.Query, Db.send, hf]

theorem getGame_ok (db : Db) (hf : db.fault = none) :
    getGame db = ((some (db.rows.map SqlRow.scan), none), db.sent .selectAll) := by
  simp [getGame, Db.Query, Db.send, hf, sent_rows, foldl_append_scan]

theorem jsonMarshalSlice_scan (rows : List SqlRow) :
    jsonMarshalSlice (some (rows.map SqlRow.scan)) = .ok (.array (rows.map SqlRow.scan)) := by
  have : (rows.map SqlRow.scan).all (fun g => g.Price.isFinite) = true := by
    simp only [List.all_eq_true, List.mem_map]
    rintro g ⟨row, _, rfl⟩
    exact row.price.property
  simp [jsonMarshalSlice, this]


theorem insertGame_fault (db : Db) (game : GameList) (e : DriverError)
    (hf : db.fault = some e) :
    insertGame db game = ((0, some (.driver e)), db.sent (.insert game)) := by
  simp [insertGame, Db.ExecInsert, Db.send, hf]

/-- What a successful `insertGame` did: the statement ran, the id under
which the row is stored was not in the table, the row was appended, and the
id returned is the one the store reports. -/
theorem insertGame_ok_inv (db : Db) (game : GameList) (N : Int) (db1 : Db)
    (h : insertGame db game = ((N, none), db1)) :
    ∃ (hfin : game.Price.isFinite = true),
      db.fault = none ∧
      N = db.reportedId game ∧
      (∀ row ∈ db.rows, row.gameid ≠ db.storedId game) ∧
      db1.rows = db.rows ++
        [⟨db.storedId game, game.Gamename, ⟨game.Price, hfin⟩, game.ImageURL⟩] ∧
      db1.faults = db.faults.tail ∧
      db1.log = db.log ++ [.insert game] := by
  cases hf : db.fault with
  | some e => rw [insertGame_fault db game e hf] at h; simp at h
  | none =>
    by_cases hfin : game.Price.isFinite = true
    · refine ⟨hfin, rfl, ?_⟩
      by_cases hdup : (db.rows.any (fun row => row.gameid = db.storedId game)) = true
      · simp only [insertGame, Db.ExecInsert, Db.send, hf, hfin, dite_true, sent_rows,
          sent_storedId, hdup, if_true] at h
        exact absurd (congrArg (fun x => x.1.2) h) (by simp)
      · simp only [insertGame, Db.ExecInsert, Db.send, hf, hfin, dite_true, sent_rows,
          sent_storedId, sent_reportedId, sent_ids, hdup, Bool.false_eq_true, if_false] at h
        simp only [Prod.mk.injEq, and_true] at h
        obtain ⟨hN, hdb⟩ := h
        refine ⟨hN.symm, ?_, ?_, ?_, ?_⟩
        · intro row hrow heq
          apply hdup
          simp only [List.any_eq_true, decide_eq_true_eq]
          exact ⟨row, hrow, heq⟩
        · rw [← hdb]
        · rw [← hdb]; rfl
        · rw [← hdb]; rfl
    · simp [insertGame, Db.ExecInsert, Db.send, hf, hfin] at h

/-! ## Facts about the handlers -/

theorem WriteHeader_status (w : ResponseWriter) (code : Nat) (hw : w.status = none) :
    (w.WriteHeader code).Status = code := by
  simp [ResponseWriter.WriteHeader, ResponseWriter.Status, hw]

theorem WriteHeader_body (w : ResponseWriter) (code : Nat) : (w.WriteHeader code).body = w.body := by
  unfold ResponseWriter.WriteHeader
  split <;> rfl

theorem Write_status (w : ResponseWriter) (b : Payload) (hw : w.status = none) :
    (w.Write b).Status = StatusOK := by
  simp [ResponseWriter.Write, ResponseWriter.WriteHeader, ResponseWriter.Status, hw]

theorem Write_body (w : ResponseWriter) (b : Payload) : (w.Write b).body = w.body ++ [b] := by
  simp [ResponseWriter.Write, WriteHeader_body]

theorem Status_unwritten (w : ResponseWriter) (hw : w.status = none) : w.Status = StatusOK := by
  simp [ResponseWriter.Status, hw]

theorem sliceFrom_one (segs : List (List Char)) (h : 0 < segs.length) :
    sliceFrom segs 1 = some (segs.drop 1) := by
  unfold sliceFrom
  rw [if_pos (by omega)]

/-- The bad-request guard of `handlerGame`. -/
theorem handlerGame_guard (w : ResponseWriter) (r : Request) (db : Db)
    (h : 2 < (Split r.Path gameSep).length) :
    handlerGame w r db = ⟨w.WriteHeader StatusBadRequest, db, .returned⟩ := by
  have hpos := Split_length_pos r.Path
  simp only [handlerGame, sliceFrom_one _ hpos, List.length_drop]
  rw [if_pos (by omega)]

/-- Past the guard, `handlerGame` parses the last piece of the split. -/
theorem handlerGame_last (w : ResponseWriter) (r : Request) (db : Db)
    (h : (Split r.Path gameSep).length ≤ 2) :
    ∃ last, (Split r.Path gameSep).getLast? = some last ∧
      handlerGame w r db =
        (match Atoi last with
         | .error _ => ⟨w.WriteHeader StatusNotFound, db, .returned⟩
         | .ok gamesID => gameMethodSwitch gamesID w r db) := by
  have hpos := Split_length_pos r.Path
  have hne : Split r.Path gameSep ≠ [] := List.length_pos.mp hpos
  refine ⟨(Split r.Path gameSep).getLast hne, List.getLast?_eq_getLast _ hne, ?_⟩
  simp only [handlerGame, sliceFrom_one _ hpos, List.length_drop]
  rw [if_neg (by omega)]
  have : (Split r.Path gameSep)[(Split r.Path gameSep).length - 1]? =
      some ((Split r.Path gameSep).getLast hne) := by
    rw [← List.getLast?_eq_getElem?, List.getLast?_eq_getLast _ hne]
  rw [this]


theorem splitLoop_succ_some (sep : List Char) (n : Nat) (s a b : List Char)
    (h : cutFirst sep s = some (a, b)) : splitLoop sep (n + 1) s = a :: splitLoop sep n b := by
  rw [splitLoop, h]

theorem splitLoop_succ_none (sep : List Char) (n : Nat) (s : List Char)
    (h : cutFirst sep s = none) : splitLoop sep (n + 1) s = [s] := by
  rw [splitLoop, h]

theorem itemPath_eq (seg : List Char) : itemPath seg = (BasePath ++ ['/']) ++ gameSep ++ seg := by
  simp [itemPath, gameSep]

/-- The path of the item endpoint splits into the prefix `/api/` followed by
the pieces of the segment. -/
theorem Split_itemPath_cons (seg : List Char) :
    Split (itemPath seg) gameSep = (BasePath ++ ['/']) :: Split seg gameSep := by
  rw [Split_gameSep, Split_gameSep]
  have hlen : (itemPath seg).length = (seg.length + 11) + 1 := by
    simp [itemPath, BasePath, gamePath]
  rw [hlen]
  have hcut : cutFirst gameSep (itemPath seg) = some (BasePath ++ ['/'], seg) := by
    simp [itemPath, BasePath, gamePath, gameSep, cutFirst, List.isPrefixOf]
  rw [splitLoop_succ_some _ _ _ _ _ hcut,
    splitLoop_fuel gameSep gameSep_ne_nil (seg.length + 11) seg.length seg (by omega)
      (Nat.le_refl _)]

theorem Split_of_cutFirst_none (seg : List Char) (h : cutFirst gameSep seg = none) :
    Split seg gameSep = [seg] := by
  rw [Split_gameSep]
  cases hn : seg.length with
  | zero => rfl
  | succ n => exact splitLoop_succ_none _ _ _ h

theorem Split_itemPath_single (seg : List Char) (h : cutFirst gameSep seg = none) :
    Split (itemPath seg) gameSep = [BasePath ++ ['/'], seg] := by
  rw [Split_itemPath_cons, Split_of_cutFirst_none seg h]

theorem Atoi_ok_digits (s : List Char) (id : Int) (h : Atoi s = .ok id) :
    ∃ m, parseUint (if s.head? = some '-' ∨ s.head? = some '+' then s.tail else s) 0
      = .ok m := by
  unfold Atoi at h
  simp only at h
  generalize (if s.head? = some '-' ∨ s.head? = some '+' then s.tail else s) = digits at h ⊢
  by_cases hd : digits = []
  · rw [if_pos hd] at h; cases h
  · rw [if_neg hd] at h
    cases hp : parseUint digits 0 with
    | error e => rw [hp] at h; cases h
    | ok n => exact ⟨n, rfl⟩

/-- A string that `Atoi` accepts has no slash. -/
theorem Atoi_ok_no_slash (s : List Char) (id : Int) (h : Atoi s = .ok id) : '/' ∉ s := by
  obtain ⟨m, hm⟩ := Atoi_ok_digits s id h
  have hall := parseUint_ok_digit _ 0 m hm
  intro hmem
  have hnot : (digitVal '/').isSome ≠ true := by decide
  by_cases hsign : s.head? = some '-' ∨ s.head? = some '+'
  · rw [if_pos hsign] at hall
    cases s with
    | nil => simp at hmem
    | cons c cs =>
      rcases List.mem_cons.mp hmem with hc | hc
      · subst hc
        simp at hsign
      · exact hnot (hall _ (by simpa using hc))
  · rw [if_neg hsign] at hall
    exact hnot (hall _ hmem)

theorem Atoi_slash_error (s : List Char) (h : '/' ∈ s) : ∃ e, Atoi s = .error e := by
  cases ha : Atoi s with
  | error e => exact ⟨e, rfl⟩
  | ok id => exact absurd h (Atoi_ok_no_slash s id ha)

/-- On the item path with a segment free of the separator, `handlerGame`
parses the segment. -/
theorem handlerGame_itemPath (w : ResponseWriter) (r : Request) (db : Db) (seg : List Char)
    (hp : r.Path = itemPath seg) (hseg : cutFirst gameSep seg = none) :
    handlerGame w r db =
      (match Atoi seg with
       | .error _ => ⟨w.WriteHeader StatusNotFound, db, .returned⟩
       | .ok gamesID => gameMethodSwitch gamesID w r db) := by
  have hsplit : Split r.Path gameSep = [BasePath ++ ['/'], seg] := by
    rw [hp]; exact Split_itemPath_single seg hseg
  obtain ⟨last, hlast, heq⟩ := handlerGame_last w r db (by rw [hsplit]; simp)
  rw [hsplit] at hlast
  simp only [List.getLast?_cons_cons, List.getLast?_singleton, Option.some.injEq] at hlast
  rw [heq, ← hlast]

theorem handlerGame_itemPath_error (w : ResponseWriter) (r : Request) (db : Db)
    (seg : List Char) (e : NumError)
    (hp : r.Path = itemPath seg) (hseg : cutFirst gameSep seg = none)
    (he : Atoi seg = .error e) :
    handlerGame w r db = ⟨w.WriteHeader StatusNotFound, db, .returned⟩ := by
  rw [handlerGame_itemPath w r db seg hp hseg, he]

theorem handlerGame_itemPath_ok (w : ResponseWriter) (r : Request) (db : Db)
    (seg : List Char) (id : Int)
    (hp : r.Path = itemPath seg) (hid : Atoi seg = .ok id) :
    handlerGame w r db = gameMethodSwitch id w r db := by
  rw [handlerGame_itemPath w r db seg hp
    (cutFirst_gameSep_none seg (Atoi_ok_no_slash seg id hid)), hid]

theorem switch_get_fault (id : Int) (w : ResponseWriter) (r : Request) (db : Db)
    (e : DriverError) (hm : r.Method = MethodGet) (hf : db.fault = some e) :
    gameMethodSwitch id w r db =
      ⟨w.WriteHeader StatusInternalServerError, db.sent (.selectByID id), .returned⟩ := by
  simp [gameMethodSwitch, hm, getGameList_fault db id e hf]

theorem switch_get_absent (id : Int) (w : ResponseWriter) (r : Request) (db : Db)
    (hm : r.Method = MethodGet) (hf : db.fault = none)
    (hrow : db.rows.find? (fun row => row.gameid = id) = none) :
    gameMethodSwitch id w r db =
      ⟨w.WriteHeader StatusNotFound, db.sent (.selectByID id), .returned⟩ := by
  simp [gameMethodSwitch, hm, getGameList_absent db id hf hrow]

theorem switch_get_found (id : Int) (w : ResponseWriter) (r : Request) (db : Db)
    (row : SqlRow) (hm : r.Method = MethodGet) (hf : db.fault = none)
    (hrow : db.rows.find? (fun row => row.gameid = id) = some row) :
    gameMethodSwitch id w r db =
      ⟨w.Write (.json (.object row.scan)), db.sent (.selectByID id), .returned⟩ := by
  have hg := getGameList_found db id row hf hrow
  have hj := getGameList_some_marshal db id row.scan _ hg
  simp [gameMethodSwitch, hm, hg, hj]

theorem MethodDelete_ne_Get : MethodDelete ≠ MethodGet := by decide

theorem switch_delete_fault (id : Int) (w : ResponseWriter) (r : Request) (db : Db)
    (e : DriverError) (hm : r.Method = MethodDelete) (hf : db.fault = some e) :
    gameMethodSwitch id w r db =
      ⟨w.WriteHeader StatusInternalServerError, db.sent (.deleteByID id), .returned⟩ := by
  simp [gameMethodSwitch, hm, MethodDelete_ne_Get, removeGame_fault db id e hf]

theorem switch_delete_ok (id : Int) (w : ResponseWriter) (r : Request) (db : Db)
    (hm : r.Method = MethodDelete) (hf : db.fault = none) :
    gameMethodSwitch id w r db =
      ⟨w, { db.sent (.deleteByID id) with
              rows := db.rows.filter (fun row => row.gameid ≠ id) }, .returned⟩ := by
  simp [gameMethodSwitch, hm, MethodDelete_ne_Get, removeGame_ok db id hf]

theorem switch_other (id : Int) (w : ResponseWriter) (r : Request) (db : Db)
    (hg : r.Method ≠ MethodGet) (hd : r.Method ≠ MethodDelete) :
    gameMethodSwitch id w r db = ⟨w.WriteHeader StatusMethodNotAllowed, db, .returned⟩ := by
  simp [gameMethodSwitch, hg, hd]

/-- The method switch always returns, and never with status 400. -/
theorem switch_status (id : Int) (w : ResponseWriter) (r : Request) (db : Db)
    (hw : w.status = none) :
    (gameMethodSwitch id w r db).exit = .returned ∧
      (gameMethodSwitch id w r db).w.Status ≠ StatusBadRequest := by
  by_cases hg : r.Method = MethodGet
  · cases hf : db.fault with
    | some e =>
      rw [switch_get_fault id w r db e hg hf]
      exact ⟨rfl, by rw [WriteHeader_status _ _ hw]; decide⟩
    | none =>
      cases hrow : db.rows.find? (fun row => row.gameid = id) with
      | none =>
        rw [switch_get_absent id w r db hg hf hrow]
        exact ⟨rfl, by rw [WriteHeader_status _ _ hw]; decide⟩
      | some row =>
        rw [switch_get_found id w r db row hg hf hrow]
        exact ⟨rfl, by rw [Write_status _ _ hw]; decide⟩
  · by_cases hd : r.Method = MethodDelete
    · cases hf : db.fault with
      | some e =>
        rw [switch_delete_fault id w r db e hd hf]
        exact ⟨rfl, by rw [WriteHeader_status _ _ hw]; decide⟩
      | none =>
        rw [switch_delete_ok id w r db hd hf]
        exact ⟨rfl, by rw [Status_unwritten _ hw]; decide⟩
    · rw [switch_other id w r db hg hd]
      exact ⟨rfl, by rw [WriteHeader_status _ _ hw]; decide⟩


/-! ## The claims -/

/-- C1, as stated, fails: `GET /api/gamedb/1/2` has two segments after
`gamedb/`, and `handlerGame` answers 404, not 400. -/
theorem C1_counterexample :
    (handlerGame ResponseWriter.fresh (request "GET" "/api/gamedb/1/2") emptyDb).w.Status
        = StatusNotFound ∧
      (handlerGame ResponseWriter.fresh (request "GET" "/api/gamedb/1/2") emptyDb).w.Status
        ≠ StatusBadRequest := by
  decide

/-- C1, amended: a request to `handlerGame` whose path has more than one
segment after `gamedb/` (the text after the prefix holds a slash) is
rejected without calling the store, whatever the method: with 400 when that
text holds `gamedb/` again, with 404 otherwise. -/
theorem C1_extra_segments_rejected (w : ResponseWriter) (r : Request) (db : Db)
    (seg : List Char) (hw : w.Unwritten) (hp : r.Path = itemPath seg) (hs : '/' ∈ seg) :
    (handlerGame w r db).db = db ∧ (handlerGame w r db).exit = .returned ∧
      ((∃ a b, seg = a ++ gameSep ++ b) →
        (handlerGame w r db).w.Status = StatusBadRequest) ∧
      ((¬ ∃ a b, seg = a ++ gameSep ++ b) →
        (handlerGame w r db).w.Status = StatusNotFound) := by
  by_cases hocc : ∃ a b, seg = a ++ gameSep ++ b
  · obtain ⟨a, b, hab⟩ := hocc
    have hlen : 2 < (Split r.Path gameSep).length := by
      rw [Split_length_gt_two_iff]
      exact ⟨BasePath ++ ['/'], a, b, by rw [hp, itemPath_eq, hab]; simp⟩
    rw [handlerGame_guard w r db hlen]
    refine ⟨rfl, rfl, fun _ => WriteHeader_status _ _ hw.1, fun hno => ?_⟩
    exact absurd ⟨a, b, hab⟩ hno
  · have hnone : cutFirst gameSep seg = none := by
      cases hc : cutFirst gameSep seg with
      | none => rfl
      | some p => exact absurd ⟨p.1, p.2, cutFirst_some_eq _ _ _ _ hc⟩ hocc
    obtain ⟨e, he⟩ := Atoi_slash_error seg hs
    rw [handlerGame_itemPath_error w r db seg e hp hnone he]
    exact ⟨rfl, rfl, fun h => absurd h hocc, fun _ => WriteHeader_status _ _ hw.1⟩

/-- C1, amended, at `DELETE /api/gamedb/gamedb/1` (400) and at
`GET /api/gamedb/1/2` (404). -/
theorem C1_extra_segments_rejected_witness :
    (handlerGame ResponseWriter.fresh (request "DELETE" "/api/gamedb/gamedb/1") oneRowDb).w.Status
        = StatusBadRequest ∧
      (handlerGame ResponseWriter.fresh (request "DELETE" "/api/gamedb/gamedb/1") oneRowDb).db
        = oneRowDb ∧
      (handlerGame ResponseWriter.fresh (request "GET" "/api/gamedb/1/2") oneRowDb).w.Status
        = StatusNotFound :=
  ⟨(C1_extra_segments_rejected ResponseWriter.fresh (request "DELETE" "/api/gamedb/gamedb/1")
      oneRowDb "gamedb/1".toList ⟨rfl, rfl⟩ rfl (by decide)).2.2.1 ⟨[], "1".toList, rfl⟩,
   (C1_extra_segments_rejected ResponseWriter.fresh (request "DELETE" "/api/gamedb/gamedb/1")
      oneRowDb "gamedb/1".toList ⟨rfl, rfl⟩ rfl (by decide)).1,
   (C1_extra_segments_rejected ResponseWriter.fresh (request "GET" "/api/gamedb/1/2")
      oneRowDb "1/2".toList ⟨rfl, rfl⟩ rfl (by decide)).2.2.2
      (fun ⟨a, b, h⟩ =>
        cutFirst_none_no_occurrence gameSep gameSep_ne_nil "1/2".toList rfl a b h)⟩

/-- C6: a request to `handlerGame` whose single segment after `gamedb/` is
not an integer that `Atoi` accepts is answered 404, whatever the method, and
the store is not called. -/
theorem C6_non_integer_segment (w : ResponseWriter) (r : Request) (db : Db)
    (seg : List Char) (e : NumError) (hw : w.Unwritten) (hp : r.Path = itemPath seg)
    (hseg : '/' ∉ seg) (hbad : Atoi seg = .error e) :
    (handlerGame w r db).w.Status = StatusNotFound ∧ (handlerGame w r db).w.body = [] ∧
      (handlerGame w r db).db = db ∧ (handlerGame w r db).exit = .returned := by
  rw [handlerGame_itemPath_error w r db seg e hp (cutFirst_gameSep_none seg hseg) hbad]
  exact ⟨WriteHeader_status _ _ hw.1, by rw [WriteHeader_body]; exact hw.2, rfl, rfl⟩

/-- C6 at `/api/gamedb/abc`, at the empty segment of `/api/gamedb/`, and at
2^63, the first decimal string above the `int` range. -/
theorem C6_non_integer_segment_witness :
    (handlerGame ResponseWriter.fresh (request "GET" "/api/gamedb/abc") oneRowDb).w.Status
        = StatusNotFound ∧
      (handlerGame ResponseWriter.fresh (request "DELETE" "/api/gamedb/") oneRowDb).w.Status
        = StatusNotFound ∧
      (handlerGame ResponseWriter.fresh
          (request "PUT" "/api/gamedb/9223372036854775808") oneRowDb).w.Status
        = StatusNotFound ∧
      (handlerGame ResponseWriter.fresh
          (request "PUT" "/api/gamedb/9223372036854775808") oneRowDb).db = oneRowDb :=
  ⟨(C6_non_integer_segment ResponseWriter.fresh (request "GET" "/api/gamedb/abc") oneRowDb
      "abc".toList .ErrSyntax ⟨rfl, rfl⟩ rfl (by decide) rfl).1,
   (C6_non_integer_segment ResponseWriter.fresh (request "DELETE" "/api/gamedb/") oneRowDb
      [] .ErrSyntax ⟨rfl, rfl⟩ rfl (by decide) rfl).1,
   (C6_non_integer_segment ResponseWriter.fresh
      (request "PUT" "/api/gamedb/9223372036854775808") oneRowDb
      "9223372036854775808".toList .ErrRange ⟨rfl, rfl⟩ rfl (by decide) rfl).1,
   (C6_non_integer_segment ResponseWriter.fresh
      (request "PUT" "/api/gamedb/9223372036854775808") oneRowDb
      "9223372036854775808".toList .ErrRange ⟨rfl, rfl⟩ rfl (by decide) rfl).2.2.1⟩


theorem splitLoop_pair (sep : List Char) (n : Nat) (s a b : List Char)
    (h : splitLoop sep n s = [a, b]) : s = a ++ sep ++ b := by
  cases n with
  | zero => simp [splitLoop] at h
  | succ n =>
    cases hc : cutFirst sep s with
    | none => rw [splitLoop_succ_none _ _ _ hc] at h; simp at h
    | some p =>
      obtain ⟨a1, b1⟩ := p
      rw [splitLoop_succ_some _ _ _ _ _ hc] at h
      simp only [List.cons.injEq] at h
      obtain ⟨rfl, h2⟩ := h
      have hb : b1 = b := by
        cases n with
        | zero => simpa [splitLoop] using h2
        | succ n =>
          cases hc2 : cutFirst sep b1 with
          | none => rw [splitLoop_succ_none _ _ _ hc2] at h2; simpa using h2
          | some p2 =>
            rw [splitLoop_succ_some _ _ _ p2.1 p2.2 hc2] at h2
            have hpos := splitLoop_length_pos sep n p2.2
            have hl := congrArg List.length h2
            simp only [List.length_cons, List.length_nil] at hl
            omega
      rw [← hb]
      exact cutFirst_some_eq _ _ _ _ hc

/-- C10: on every path `handlerGame` indexes within range (it never
panics); it answers 400 exactly when splitting the path on `gamedb/` gives
more than two pieces, which is exactly when the path holds two
non-overlapping occurrences of `gamedb/`; and when the split gives two
pieces the second is everything after the separator and is what `Atoi`
parses. -/
theorem C10_bad_request_iff (w : ResponseWriter) (r : Request) (db : Db)
    (hw : w.Unwritten) :
    (handlerGame w r db).exit = .returned ∧
      ((handlerGame w r db).w.Status = StatusBadRequest ↔
        2 < (Split r.Path gameSep).length) ∧
      (2 < (Split r.Path gameSep).length ↔
        ∃ a b c : List Char, r.Path = a ++ gameSep ++ b ++ gameSep ++ c) ∧
      (∀ a b : List Char, Split r.Path gameSep = [a, b] →
        r.Path = a ++ gameSep ++ b ∧
        handlerGame w r db =
          (match Atoi b with
           | .error _ => ⟨w.WriteHeader StatusNotFound, db, .returned⟩
           | .ok gamesID => gameMethodSwitch gamesID w r db)) := by
  have hmain : (handlerGame w r db).exit = .returned ∧
      ((handlerGame w r db).w.Status = StatusBadRequest ↔
        2 < (Split r.Path gameSep).length) := by
    by_cases hlen : 2 < (Split r.Path gameSep).length
    · rw [handlerGame_guard w r db hlen]
      exact ⟨rfl, fun _ => hlen, fun _ => WriteHeader_status _ _ hw.1⟩
    · obtain ⟨last, -, heq⟩ := handlerGame_last w r db (by omega)
      rw [heq]
      cases ha : Atoi last with
      | error e =>
        refine ⟨rfl, fun h => ?_, fun h => absurd h hlen⟩
        simp only [WriteHeader_status _ _ hw.1] at h
        exact absurd h (by decide)
      | ok id =>
        obtain ⟨hx, hs⟩ := switch_status id w r db hw.1
        exact ⟨hx, fun h => absurd h hs, fun h => absurd h hlen⟩
  refine ⟨hmain.1, hmain.2, Split_length_gt_two_iff r.Path, ?_⟩
  intro a b hab
  refine ⟨splitLoop_pair gameSep _ _ a b (by rw [← Split_gameSep]; exact hab), ?_⟩
  obtain ⟨last, hlast, heq⟩ := handlerGame_last w r db (by rw [hab]; simp)
  rw [hab] at hlast
  simp only [List.getLast?_cons_cons, List.getLast?_singleton, Option.some.injEq] at hlast
  rw [heq, ← hlast]

/-- C10 at `/api/gamedb/gamedb/1`: three pieces, status 400, the store
untouched. -/
theorem C10_bad_request_iff_witness :
    Split "/api/gamedb/gamedb/1".toList gameSep = ["/api/".toList, [], "1".toList] ∧
      (handlerGame ResponseWriter.fresh (request "GET" "/api/gamedb/gamedb/1") oneRowDb).w.Status
        = StatusBadRequest ∧
      (handlerGame ResponseWriter.fresh (request "GET" "/api/gamedb/gamedb/1") oneRowDb).exit
        = .returned :=
  ⟨by decide,
   (C10_bad_request_iff ResponseWriter.fresh (request "GET" "/api/gamedb/gamedb/1") oneRowDb
      ⟨rfl, rfl⟩).2.1.mpr (by decide),
   (C10_bad_request_iff ResponseWriter.fresh (request "GET" "/api/gamedb/gamedb/1") oneRowDb
      ⟨rfl, rfl⟩).1⟩


/-- C5: for a `GET` on the item endpoint whose segment parses to the id
`id`: when the lookup runs and the table holds a row with that `gameid`, the
status is 200 and the body is the JSON object of such a row; when it runs
and no row matches, `getGameList` returns `(nil, nil)` and the status is
404; when the lookup fails the status is 500; and `getGameList` returns an
error exactly when the store failed. -/
theorem C5_get_item (w : ResponseWriter) (r : Request) (db : Db) (seg : List Char) (id : Int)
    (hw : w.Unwritten) (hm : r.Method = MethodGet) (hp : r.Path = itemPath seg)
    (hid : Atoi seg = .ok id) :
    (db.fault = none → (∃ row ∈ db.rows, row.gameid = id) →
        ∃ row ∈ db.rows, row.gameid = id ∧
          (handlerGame w r db).w.Status = StatusOK ∧
          (handlerGame w r db).w.body = [.json (.object row.scan)]) ∧
      (db.fault = none → (∀ row ∈ db.rows, row.gameid ≠ id) →
        (getGameList db id).1 = (none, none) ∧
          (handlerGame w r db).w.Status = StatusNotFound ∧
          (handlerGame w r db).w.body = []) ∧
      (∀ e, db.fault = some e →
        (handlerGame w r db).w.Status = StatusInternalServerError ∧
          (handlerGame w r db).w.body = []) ∧
      ((getGameList db id).1.2 ≠ none ↔ db.fault ≠ none) := by
  rw [handlerGame_itemPath_ok w r db seg id hp hid]
  refine ⟨?_, ?_, ?_, ?_⟩
  · intro hf ⟨row0, hmem0, hrow0⟩
    cases hfind : db.rows.find? (fun row => row.gameid = id) with
    | none =>
      have := List.find?_eq_none.mp hfind row0 hmem0
      simp [hrow0] at this
    | some row =>
      have hrid : row.gameid = id := by simpa using List.find?_some hfind
      refine ⟨row, List.mem_of_find?_eq_some hfind, hrid, ?_⟩
      rw [switch_get_found id w r db row hm hf hfind]
      exact ⟨Write_status _ _ hw.1, by rw [Write_body, hw.2]; rfl⟩
  · intro hf hnone
    have hfind : db.rows.find? (fun row => row.gameid = id) = none := by
      rw [List.find?_eq_none]
      intro row hrow
      simpa using hnone row hrow
    rw [switch_get_absent id w r db hm hf hfind, getGameList_absent db id hf hfind]
    exact ⟨rfl, WriteHeader_status _ _ hw.1, by rw [WriteHeader_body]; exact hw.2⟩
  · intro e hf
    rw [switch_get_fault id w r db e hm hf]
    exact ⟨WriteHeader_status _ _ hw.1, by rw [WriteHeader_body]; exact hw.2⟩
  · cases hf : db.fault with
    | some e => rw [getGameList_fault db id e hf]; simp
    | none =>
      cases hfind : db.rows.find? (fun row => row.gameid = id) with
      | none => rw [getGameList_absent db id hf hfind]; simp
      | some row => rw [getGameList_found db id row hf hfind]; simp

/-- C5 at `GET /api/gamedb/1` on the one-row table (200, the row), at
`GET /api/gamedb/2` (404), and at `GET /api/gamedb/1` when the statement
times out (500). -/
theorem C5_get_item_witness :
    (∃ row ∈ oneRowDb.rows, row.gameid = 1 ∧
        (handlerGame ResponseWriter.fresh (request "GET" "/api/gamedb/1") oneRowDb).w.Status
          = StatusOK ∧
        (handlerGame ResponseWriter.fresh (request "GET" "/api/gamedb/1") oneRowDb).w.body
          = [.json (.object row.scan)]) ∧
      (handlerGame ResponseWriter.fresh (request "GET" "/api/gamedb/2") oneRowDb).w.Status
        = StatusNotFound ∧
      (handlerGame ResponseWriter.fresh (request "GET" "/api/gamedb/1") failingDb).w.Status
        = StatusInternalServerError :=
  ⟨(C5_get_item ResponseWriter.fresh (request "GET" "/api/gamedb/1") oneRowDb "1".toList 1
      ⟨rfl, rfl⟩ rfl rfl rfl).1 rfl ⟨_, List.mem_singleton.mpr rfl, rfl⟩,
   ((C5_get_item ResponseWriter.fresh (request "GET" "/api/gamedb/2") oneRowDb "2".toList 2
      ⟨rfl, rfl⟩ rfl rfl rfl).2.1 rfl (by decide)).2.1,
   ((C5_get_item ResponseWriter.fresh (request "GET" "/api/gamedb/1") failingDb "1".toList 1
      ⟨rfl, rfl⟩ rfl rfl rfl).2.2.1 _ rfl).1⟩

/-- C7: `DELETE /api/gamedb/{id}` for any `int` id: when the delete
statement runs the status is 200 with an empty body, whether or not a row
with that id was in the table, and no such row is left; a second `DELETE` of
the same id whose statement runs is answered 200 with an empty body again;
and the status is 500 exactly when the store reports an error. -/
theorem C7_delete_idempotent (w : ResponseWriter) (r : Request) (db : Db) (id : Int)
    (hw : w.Unwritten) (hm : r.Method = MethodDelete) (hp : r.Path = itemPath (Itoa id))
    (hlo : -(2 : Int) ^ 63 ≤ id) (hhi : id < (2 : Int) ^ 63) :
    (db.fault = none →
        (handlerGame w r db).w.Status = StatusOK ∧ (handlerGame w r db).w.body = [] ∧
          ∀ row ∈ (handlerGame w r db).db.rows, row.gameid ≠ id) ∧
      (db.fault = none → (handlerGame w r db).db.fault = none →
        (handlerGame w r (handlerGame w r db).db).w.Status = StatusOK ∧
          (handlerGame w r (handlerGame w r db).db).w.body = []) ∧
      ((handlerGame w r db).w.Status = StatusInternalServerError ↔ db.fault ≠ none) := by
  have hsw : ∀ d : Db, handlerGame w r d = gameMethodSwitch id w r d := fun d =>
    handlerGame_itemPath_ok w r d (Itoa id) id hp (Atoi_Itoa id hlo hhi)
  have hok : ∀ d : Db, d.fault = none →
      (handlerGame w r d).w.Status = StatusOK ∧ (handlerGame w r d).w.body = [] := by
    intro d hf
    rw [hsw d, switch_delete_ok id w r d hm hf]
    exact ⟨Status_unwritten _ hw.1, hw.2⟩
  refine ⟨fun hf => ⟨(hok db hf).1, (hok db hf).2, ?_⟩, fun _ hf2 => hok _ hf2, ?_⟩
  · rw [hsw db, switch_delete_ok id w r db hm hf]
    intro row hrow
    simp only [List.mem_filter, decide_eq_true_eq] at hrow
    exact hrow.2
  · cases hf : db.fault with
    | some e =>
      rw [hsw db, switch_delete_fault id w r db e hm hf]
      simp [WriteHeader_status _ _ hw.1]
    | none =>
      rw [(hok db hf).1]
      simp [StatusOK, StatusInternalServerError]

/-- C7 at `DELETE /api/gamedb/1` on the one-row table: the first call
removes the row, the second finds none, both answer 200. -/
theorem C7_delete_idempotent_witness :
    (handlerGame ResponseWriter.fresh (request "DELETE" "/api/gamedb/1") oneRowDb).w.Status
        = StatusOK ∧
      (handlerGame ResponseWriter.fresh (request "DELETE" "/api/gamedb/1")
          (handlerGame ResponseWriter.fresh (request "DELETE" "/api/gamedb/1")
            oneRowDb).db).w.Status = StatusOK ∧
      ((handlerGame ResponseWriter.fresh (request "DELETE" "/api/gamedb/1") failingDb).w.Status
        = StatusInternalServerError ↔ failingDb.fault ≠ none) :=
  ⟨((C7_delete_idempotent ResponseWriter.fresh (request "DELETE" "/api/gamedb/1") oneRowDb 1
      ⟨rfl, rfl⟩ rfl rfl (by decide) (by decide)).1 rfl).1,
   ((C7_delete_idempotent ResponseWriter.fresh (request "DELETE" "/api/gamedb/1") oneRowDb 1
      ⟨rfl, rfl⟩ rfl rfl (by decide) (by decide)).2.1 rfl rfl).1,
   (C7_delete_idempotent ResponseWriter.fresh (request "DELETE" "/api/gamedb/1") failingDb 1
      ⟨rfl, rfl⟩ rfl rfl (by decide) (by decide)).2.2⟩


theorem MethodPost_ne_Get : MethodPost ≠ MethodGet := by decide

theorem MethodOptions_ne_Get : MethodOptions ≠ MethodGet := by decide

theorem MethodOptions_ne_Post : MethodOptions ≠ MethodPost := by decide

theorem MethodOptions_ne_Delete : MethodOptions ≠ MethodDelete := by decide

theorem created_status (w : ResponseWriter) (b : Payload) (hw : w.status = none) :
    ((w.WriteHeader StatusCreated).Write b).Status = StatusCreated := by
  simp [ResponseWriter.Write, ResponseWriter.WriteHeader, ResponseWriter.Status, hw]

theorem handlerGames_post_decode_error (decode : String → Except JsonError GameList)
    (w : ResponseWriter) (r : Request) (db : Db) (e : JsonError)
    (hm : r.Method = MethodPost) (hd : decode r.Body = .error e) :
    handlerGames decode w r db = ⟨w.WriteHeader StatusBadRequest, db, .returned⟩ := by
  simp [handlerGames, hm, MethodPost_ne_Get, hd]

theorem handlerGames_post_insert_error (decode : String → Except JsonError GameList)
    (w : ResponseWriter) (r : Request) (db : Db) (game : GameList) (n : Int) (e : SqlError)
    (hm : r.Method = MethodPost) (hd : decode r.Body = .ok game)
    (hi : (insertGame db game).1 = (n, some e)) :
    handlerGames decode w r db =
      ⟨w.WriteHeader StatusBadRequest, (insertGame db game).2, .returned⟩ := by
  have hpair : insertGame db game = ((n, some e), (insertGame db game).2) := by
    rw [← hi]
  simp only [handlerGames, hm, MethodPost_ne_Get, if_false, if_true, hd]
  rw [hpair]

theorem handlerGames_post_created (decode : String → Except JsonError GameList)
    (w : ResponseWriter) (r : Request) (db : Db) (game : GameList) (N : Int)
    (hm : r.Method = MethodPost) (hd : decode r.Body = .ok game)
    (hi : (insertGame db game).1 = (N, none)) :
    handlerGames decode w r db =
      ⟨(w.WriteHeader StatusCreated).Write
          (.text ("\x7b\"gameid\":" ++ (Itoa N).asString ++ "\x7d")),
        (insertGame db game).2, .returned⟩ := by
  have hpair : insertGame db game = ((N, none), (insertGame db game).2) := by
    rw [← hi]
  simp only [handlerGames, hm, MethodPost_ne_Get, if_false, if_true, hd]
  rw [hpair]

/-- C3: for a `POST` on the collection endpoint: a body that does not decode
gives 400 with an empty body and the store is not called; a decoded body
whose `insertGame` returns an error gives 400 with an empty body; a decoded
body whose `insertGame` returns the id `N` gives 201 with the body
`{"gameid":N}`. -/
theorem C3_post_collection (decode : String → Except JsonError GameList)
    (w : ResponseWriter) (r : Request) (db : Db) (hw : w.Unwritten)
    (hm : r.Method = MethodPost) :
    (∀ e, decode r.Body = .error e →
        (handlerGames decode w r db).w.Status = StatusBadRequest ∧
          (handlerGames decode w r db).w.body = [] ∧
          (handlerGames decode w r db).db = db) ∧
      (∀ game n e, decode r.Body = .ok game → (insertGame db game).1 = (n, some e) →
        (handlerGames decode w r db).w.Status = StatusBadRequest ∧
          (handlerGames decode w r db).w.body = []) ∧
      (∀ game N, decode r.Body = .ok game → (insertGame db game).1 = (N, none) →
        (handlerGames decode w r db).w.Status = StatusCreated ∧
          (handlerGames decode w r db).w.body =
            [.text ("\x7b\"gameid\":" ++ (Itoa N).asString ++ "\x7d")]) := by
  refine ⟨?_, ?_, ?_⟩
  · intro e hd
    rw [handlerGames_post_decode_error decode w r db e hm hd]
    exact ⟨WriteHeader_status _ _ hw.1, by rw [WriteHeader_body]; exact hw.2, rfl⟩
  · intro game n e hd hi
    rw [handlerGames_post_insert_error decode w r db game n e hm hd hi]
    exact ⟨WriteHeader_status _ _ hw.1, by rw [WriteHeader_body]; exact hw.2⟩
  · intro game N hd hi
    rw [handlerGames_post_created decode w r db game N hm hd hi]
    exact ⟨created_status _ _ hw.1, by rw [Write_body, WriteHeader_body, hw.2]; rfl⟩

/-- C3 at a body that does not decode (400, nothing sent to the store), at
a payload whose insert times out (400), and at a payload inserted into the
auto-increment table (201, body `{"gameid":1}`). -/
theorem C3_post_collection_witness :
    ((handlerGames sampleDecode ResponseWriter.fresh ⟨"POST", collectionPath, "not json"⟩
          emptyDb).w.Status = StatusBadRequest ∧
        (handlerGames sampleDecode ResponseWriter.fresh ⟨"POST", collectionPath, "not json"⟩
          emptyDb).w.body = [] ∧
        (handlerGames sampleDecode ResponseWriter.fresh ⟨"POST", collectionPath, "not json"⟩
          emptyDb).db = emptyDb) ∧
      ((handlerGames sampleDecode ResponseWriter.fresh ⟨"POST", collectionPath, "portal"⟩
          failingDb).w.Status = StatusBadRequest ∧
        (handlerGames sampleDecode ResponseWriter.fresh ⟨"POST", collectionPath, "portal"⟩
          failingDb).w.body = []) ∧
      ((handlerGames sampleDecode ResponseWriter.fresh ⟨"POST", collectionPath, "portal"⟩
          emptyAutoDb).w.Status = StatusCreated ∧
        (handlerGames sampleDecode ResponseWriter.fresh ⟨"POST", collectionPath, "portal"⟩
          emptyAutoDb).w.body = [.text "\x7b\"gameid\":1\x7d"]) :=
  ⟨(C3_post_collection sampleDecode ResponseWriter.fresh ⟨"POST", collectionPath, "not json"⟩
      emptyDb ⟨rfl, rfl⟩ rfl).1 _ rfl,
   (C3_post_collection sampleDecode ResponseWriter.fresh ⟨"POST", collectionPath, "portal"⟩
      failingDb ⟨rfl, rfl⟩ rfl).2.1 portal 0 _ rfl rfl,
   (C3_post_collection sampleDecode ResponseWriter.fresh ⟨"POST", collectionPath, "portal"⟩
      emptyAutoDb ⟨rfl, rfl⟩ rfl).2.2 portal 1 rfl rfl⟩

theorem handlerGames_get_fault (decode : String → Except JsonError GameList)
    (w : ResponseWriter) (r : Request) (db : Db) (e : DriverError)
    (hm : r.Method = MethodGet) (hf : db.fault = some e) :
    handlerGames decode w r db =
      ⟨w.WriteHeader StatusInternalServerError, db.sent .selectAll, .returned⟩ := by
  simp [handlerGames, hm, getGame_fault db e hf]

theorem handlerGames_get_ok (decode : String → Except JsonError GameList)
    (w : ResponseWriter) (r : Request) (db : Db)
    (hm : r.Method = MethodGet) (hf : db.fault = none) :
    handlerGames decode w r db =
      ⟨w.Write (.json (.array (db.rows.map SqlRow.scan))), db.sent .selectAll, .returned⟩ := by
  simp [handlerGames, hm, getGame_ok db hf, jsonMarshalSlice_scan]

/-- C4: for a `GET` on the collection endpoint: when the query runs the
handler returns with status 200 and the body is the JSON array with one
object per row of the table, in particular `[]` and not `null` for the empty
table, where `getGame` returns the empty non-nil slice; when the query fails
the status is 500 and the body is empty. -/
theorem C4_get_collection (decode : String → Except JsonError GameList)
    (w : ResponseWriter) (r : Request) (db : Db) (hw : w.Unwritten)
    (hm : r.Method = MethodGet) :
    (db.fault = none →
        (handlerGames decode w r db).exit = .returned ∧
          (handlerGames decode w r db).w.Status = StatusOK ∧
          (handlerGames decode w r db).w.body = [.json (.array (db.rows.map SqlRow.scan))] ∧
          (db.rows.map SqlRow.scan).length = db.rows.length) ∧
      (db.fault = none → db.rows = [] →
        (getGame db).1 = (some [], none) ∧
          (handlerGames decode w r db).w.body = [.json (.array [])] ∧
          (handlerGames decode w r db).w.body ≠ [.json .null]) ∧
      (∀ e, db.fault = some e →
        (handlerGames decode w r db).w.Status = StatusInternalServerError ∧
          (handlerGames decode w r db).w.body = []) := by
  refine ⟨?_, ?_, ?_⟩
  · intro hf
    rw [handlerGames_get_ok decode w r db hm hf]
    exact ⟨rfl, Write_status _ _ hw.1, by rw [Write_body, hw.2]; rfl, List.length_map _ _⟩
  · intro hf hrows
    rw [handlerGames_get_ok decode w r db hm hf, getGame_ok db hf, Write_body, hw.2, hrows]
    exact ⟨rfl, rfl, by decide⟩
  · intro e hf
    rw [handlerGames_get_fault decode w r db e hm hf]
    exact ⟨WriteHeader_status _ _ hw.1, by rw [WriteHeader_body]; exact hw.2⟩

/-- C4 at the empty table (200, body `[]`), at the one-row table (200, one
object), and when the query times out (500, empty body). -/
theorem C4_get_collection_witness :
    ((handlerGames sampleDecode ResponseWriter.fresh ⟨"GET", collectionPath, ""⟩
          emptyDb).w.Status = StatusOK ∧
        (handlerGames sampleDecode ResponseWriter.fresh ⟨"GET", collectionPath, ""⟩
          emptyDb).w.body = [.json (.array [])]) ∧
      (handlerGames sampleDecode ResponseWriter.fresh ⟨"GET", collectionPath, ""⟩
          oneRowDb).w.body = [.json (.array [⟨1, "Portal", ⟨0x4023FAE147AE147B⟩, "x.png"⟩])] ∧
      ((handlerGames sampleDecode ResponseWriter.fresh ⟨"GET", collectionPath, ""⟩
          failingDb).w.Status = StatusInternalServerError ∧
        (handlerGames sampleDecode ResponseWriter.fresh ⟨"GET", collectionPath, ""⟩
          failingDb).w.body = []) :=
  ⟨⟨((C4_get_collection sampleDecode ResponseWriter.fresh ⟨"GET", collectionPath, ""⟩ emptyDb
        ⟨rfl, rfl⟩ rfl).1 rfl).2.1,
     ((C4_get_collection sampleDecode ResponseWriter.fresh ⟨"GET", collectionPath, ""⟩ emptyDb
        ⟨rfl, rfl⟩ rfl).2.1 rfl rfl).2.1⟩,
   ((C4_get_collection sampleDecode ResponseWriter.fresh ⟨"GET", collectionPath, ""⟩ oneRowDb
      ⟨rfl, rfl⟩ rfl).1 rfl).2.2.1,
   (C4_get_collection sampleDecode ResponseWriter.fresh ⟨"GET", collectionPath, ""⟩ failingDb
      ⟨rfl, rfl⟩ rfl).2.2 _ rfl⟩


/-- C9: for every wrapped handler and every request, `corsMiddleware`
produces exactly what the handler produces on the same request and database
when handed the writer with the four headers set: the status and the body of
the writer are untouched, `Access-Control-Allow-Origin` holds `*`,
`Content-Type` holds `application/json`, and the allowed methods and headers
are set to their fixed values. -/
theorem C9_cors_delegates (handler : Handler) (w : ResponseWriter) (r : Request) (db : Db) :
    corsMiddleware handler w r db = handler (corsHeaders w) r db ∧
      (corsHeaders w).status = w.status ∧ (corsHeaders w).body = w.body ∧
      (corsHeaders w).header "Access-Control-Allow-Origin"
        = w.header "Access-Control-Allow-Origin" ++ ["*"] ∧
      (corsHeaders w).header "Content-Type" = w.header "Content-Type" ++ ["application/json"] ∧
      (corsHeaders w).header "Access-Control-Allow-Methods"
        = ["POST, GET, OPTIONS, PUT, DELETE"] ∧
      (corsHeaders w).header "Access-Control-Allow-Headers"
        = ["Accept, Content-Type, Authorization, X-Control"] ∧
      (corsHeaders ResponseWriter.fresh).header "Access-Control-Allow-Origin" = ["*"] ∧
      (corsHeaders ResponseWriter.fresh).header "Content-Type" = ["application/json"] := by
  refine ⟨rfl, rfl, rfl, ?_, ?_, ?_, ?_, ?_, ?_⟩ <;>
    simp [corsHeaders, Header.Add, Header.Set, ResponseWriter.fresh]

/-- C2 on the code: through `corsMiddleware`, `OPTIONS` on the collection
endpoint is answered 200 with the CORS headers set and the store untouched,
but `OPTIONS /api/gamedb/1` on the item endpoint is answered 405: the
method switch of `handlerGame` has no case for `OPTIONS`. -/
theorem C2_options_item_endpoint (decode : String → Except JsonError GameList) (db : Db)
    (body : String) :
    ((gamesRoute decode ResponseWriter.fresh ⟨MethodOptions, collectionPath, body⟩ db).w.Status
        = StatusOK ∧
      (gamesRoute decode ResponseWriter.fresh ⟨MethodOptions, collectionPath, body⟩ db).db = db ∧
      (gamesRoute decode ResponseWriter.fresh
        ⟨MethodOptions, collectionPath, body⟩ db).w.header "Access-Control-Allow-Origin"
        = ["*"]) ∧
    ((gameRoute ResponseWriter.fresh ⟨MethodOptions, itemPath "1".toList, body⟩ db).w.Status
        = StatusMethodNotAllowed ∧
      (gameRoute ResponseWriter.fresh ⟨MethodOptions, itemPath "1".toList, body⟩ db).db = db ∧
      (gameRoute ResponseWriter.fresh
        ⟨MethodOptions, itemPath "1".toList, body⟩ db).w.header "Access-Control-Allow-Methods"
        = ["POST, GET, OPTIONS, PUT, DELETE"]) := by
  constructor
  · have h : gamesRoute decode ResponseWriter.fresh ⟨MethodOptions, collectionPath, body⟩ db
        = ⟨corsHeaders ResponseWriter.fresh, db, .returned⟩ := by
      simp [gamesRoute, corsMiddleware, handlerGames, MethodOptions_ne_Get,
        MethodOptions_ne_Post]
    rw [h]
    refine ⟨rfl, rfl, ?_⟩
    simp [corsHeaders, Header.Add, Header.Set, ResponseWriter.fresh]
  · have h : gameRoute ResponseWriter.fresh ⟨MethodOptions, itemPath "1".toList, body⟩ db
        = ⟨(corsHeaders ResponseWriter.fresh).WriteHeader StatusMethodNotAllowed, db,
            .returned⟩ := by
      unfold gameRoute corsMiddleware
      rw [handlerGame_itemPath_ok _ _ db "1".toList 1 rfl rfl,
        switch_other 1 _ _ db MethodOptions_ne_Get MethodOptions_ne_Delete]
    rw [h]
    refine ⟨rfl, rfl, ?_⟩
    simp [corsHeaders, Header.Add, Header.Set, ResponseWriter.fresh,
      ResponseWriter.WriteHeader]

/-- When a `POST` of a decoded payload is answered 201 with the id `N` and
`N` is the `gameid` under which the row was stored, a following
`GET /api/gamedb/N` whose lookup runs is answered 200 with the JSON object of
the row with `gameid` `N` and the posted name, price and image. -/
theorem get_after_post_when_id_is_gameid (decode : String → Except JsonError GameList)
    (w : ResponseWriter) (r r2 : Request) (db : Db) (game : GameList) (N : Int)
    (hw : w.Unwritten) (hm : r.Method = MethodPost) (hd : decode r.Body = .ok game)
    (hi : (insertGame db game).1 = (N, none))
    (hkey : db.storedId game = N)
    (hlo : -(2 : Int) ^ 63 ≤ N) (hhi : N < (2 : Int) ^ 63)
    (hm2 : r2.Method = MethodGet) (hp2 : r2.Path = itemPath (Itoa N))
    (hf2 : (handlerGames decode w r db).db.fault = none) :
    (handlerGame w r2 (handlerGames decode w r db).db).w.Status = StatusOK ∧
      (handlerGame w r2 (handlerGames decode w r db).db).w.body
        = [.json (.object ⟨N, game.Gamename, game.Price, game.ImageURL⟩)] := by
  have hdb : (handlerGames decode w r db).db = (insertGame db game).2 := by
    rw [handlerGames_post_created decode w r db game N hm hd hi]
  rw [hdb] at hf2 ⊢
  have hpair : insertGame db game = ((N, none), (insertGame db game).2) := by rw [← hi]
  obtain ⟨hfin, -, -, hfresh, hrows, -, -⟩ := insertGame_ok_inv db game N _ hpair
  rw [hkey] at hfresh hrows
  have hfind : (insertGame db game).2.rows.find? (fun row => row.gameid = N)
      = some ⟨N, game.Gamename, ⟨game.Price, hfin⟩, game.ImageURL⟩ := by
    rw [hrows, List.find?_append]
    have h1 : db.rows.find? (fun row => row.gameid = N) = none := by
      rw [List.find?_eq_none]
      intro row hrow
      simpa using hfresh row hrow
    rw [h1]
    simp
  rw [handlerGame_itemPath_ok w r2 _ (Itoa N) N hp2 (Atoi_Itoa N hlo hhi),
    switch_get_found N w r2 _ _ hm2 hf2 hfind]
  refine ⟨Write_status _ _ hw.1, ?_⟩
  rw [Write_body, hw.2]
  rfl

/-- C8 on the code: `handlerGames` answers a `POST` with the id of
`LastInsertId` under the key `gameid`, while `handlerGame` looks a row up by
the column `gameid`. On the table of the specification the scenario payload
(no `gameid`) is answered 201 with the id 1 and stored under `gameid` 0, so
`GET /api/gamedb/1` is answered 404 and the row is found at
`GET /api/gamedb/0`. On a table that generates no id the payload with
`gameid` 7 is answered 201 with the id 0, and `GET /api/gamedb/0` is answered
404. -/
theorem C8_returned_id_is_not_gameid :
    ((handlerGames sampleDecode ResponseWriter.fresh ⟨"POST", collectionPath, "portal"⟩
          emptyRowIdDb).w.Status = StatusCreated ∧
        (handlerGames sampleDecode ResponseWriter.fresh ⟨"POST", collectionPath, "portal"⟩
          emptyRowIdDb).w.body = [.text "\x7b\"gameid\":1\x7d"] ∧
        (handlerGames sampleDecode ResponseWriter.fresh ⟨"POST", collectionPath, "portal"⟩
          emptyRowIdDb).db.rows.map SqlRow.scan = [portal] ∧
        (handlerGame ResponseWriter.fresh (request "GET" "/api/gamedb/1")
          (handlerGames sampleDecode ResponseWriter.fresh ⟨"POST", collectionPath, "portal"⟩
            emptyRowIdDb).db).w.Status = StatusNotFound ∧
        (handlerGame ResponseWriter.fresh (request "GET" "/api/gamedb/0")
          (handlerGames sampleDecode ResponseWriter.fresh ⟨"POST", collectionPath, "portal"⟩
            emptyRowIdDb).db).w.body = [.json (.object portal)]) ∧
      ((handlerGames sampleDecode ResponseWriter.fresh ⟨"POST", collectionPath, "portal7"⟩
          emptyDb).w.Status = StatusCreated ∧
        (handlerGames sampleDecode ResponseWriter.fresh ⟨"POST", collectionPath, "portal7"⟩
          emptyDb).w.body = [.text "\x7b\"gameid\":0\x7d"] ∧
        (handlerGame ResponseWriter.fresh (request "GET" "/api/gamedb/0")
          (handlerGames sampleDecode ResponseWriter.fresh ⟨"POST", collectionPath, "portal7"⟩
            emptyDb).db).w.Status = StatusNotFound) := by
  decide

end GameApi
